import Mathlib

/-!
Verification development for the FanBlitz analytics engine
(`src/fanblitz_main.cpp`).  The C++ classes `StatisticalAnalyzer`,
`TimeSeriesData` and `PerformanceAnalyzer` are shallowly embedded below:
`double` values are modelled as exact rationals (`ℚ`), with `Real.sqrt`
used where the source calls `std::sqrt` (so standard-deviation-derived
quantities live in `ℝ`); `std::vector` becomes `List`; the
`std::map`-based indices become order-preserving `List.filter`
projections of the flat record store; the `std::sort` calls are
modelled by `List.insertionSort` (one behaviour conforming to the
`std::sort` contract), and the contract itself — any sorted
permutation — is captured separately by `stdSortAdmissible` where a
claim depends on it.  Indexing that the C++ performs without a bounds
check is modelled with `Option`-returning access so out-of-bounds
reads are visible as `none`.
-/

/-- One per-player-per-season record, mirroring `struct PlayerStats`.
Integer counting stats are `Int` (C++ `int`), `double` fields are `ℚ`. -/
structure PlayerStats where
  player_id : String
  player_name : String
  team : String
  position : String
  season : String
  matches_played : Int
  minutes_played : Int
  goals : Int
  assists : Int
  shots : Int
  shots_on_target : Int
  passes : Int
  pass_accuracy : ℚ
  tackles : Int
  interceptions : Int
  goals_per_match : ℚ
  assists_per_match : ℚ
  rating : ℚ
deriving DecidableEq, Repr

/-- Mirrors `struct TimeSeriesData`: parallel season/value sequences. -/
structure TimeSeriesData where
  seasons : List String
  values : List ℚ
  metric_name : String
  player_name : String
deriving DecidableEq, Repr

/-- Sum of squared deviations `Σ (v - m)²`, the accumulation loop shared by
`TimeSeriesData::std_dev` and `StatisticalAnalyzer::calculate_std_dev`. -/
def sqDevSum (xs : List ℚ) (m : ℚ) : ℚ :=
  (xs.map (fun v => (v - m) * (v - m))).sum

namespace TimeSeriesData

/-- `TimeSeriesData::mean`: 0 on empty, else arithmetic mean. -/
def mean (ts : TimeSeriesData) : ℚ :=
  if ts.values = [] then 0 else ts.values.sum / (ts.values.length : ℚ)

/-- `TimeSeriesData::std_dev`: 0 for fewer than 2 points, else
`sqrt (Σ (v - mean)² / (n - 1))`. -/
noncomputable def std_dev (ts : TimeSeriesData) : ℝ :=
  if ts.values.length < 2 then 0
  else Real.sqrt ((sqDevSum ts.values ts.mean / ((ts.values.length : ℚ) - 1) : ℚ) : ℝ)

/-- `TimeSeriesData::coefficient_of_variation`: 0 when the mean is 0,
else `(std_dev / mean) * 100`. -/
noncomputable def coefficient_of_variation (ts : TimeSeriesData) : ℝ :=
  if ts.mean = 0 then 0 else (ts.std_dev / (ts.mean : ℝ)) * 100

end TimeSeriesData

namespace StatisticalAnalyzer

/-- `StatisticalAnalyzer::calculate_mean`. -/
def calculate_mean (data : List ℚ) : ℚ :=
  if data = [] then 0 else data.sum / (data.length : ℚ)

/-- `StatisticalAnalyzer::calculate_median`: sorts a by-value copy and takes
the middle element (odd length) or the mean of the two middle elements
(even length).  The in-bounds accesses `data[n/2 - 1]`, `data[n/2]` are
modelled with `getD` (they are always in bounds on the non-empty branch). -/
def calculate_median (data : List ℚ) : ℚ :=
  if data = [] then 0
  else
    let s := List.insertionSort (fun a b : ℚ => a ≤ b) data
    let n := data.length
    if n % 2 = 0 then (s.getD (n / 2 - 1) 0 + s.getD (n / 2) 0) / 2
    else s.getD (n / 2) 0

/-- `StatisticalAnalyzer::calculate_std_dev`: 0 for fewer than 2 points,
else `sqrt (Σ (v - mean)² / (n - 1))`. -/
noncomputable def calculate_std_dev (data : List ℚ) : ℝ :=
  if data.length < 2 then 0
  else Real.sqrt ((sqDevSum data (calculate_mean data) / ((data.length : ℚ) - 1) : ℚ) : ℝ)

/-- `StatisticalAnalyzer::calculate_correlation`: returns 0 when the lengths
differ or are below 2, or when the denominator `sqrt (Σdx² * Σdy²)` is 0;
otherwise the Pearson quotient.  The index loop over `i < x.size()` is the
`zip` of the two equal-length lists. -/
noncomputable def calculate_correlation (x y : List ℚ) : ℝ :=
  if x.length ≠ y.length ∨ x.length < 2 then 0
  else
    let mean_x := calculate_mean x
    let mean_y := calculate_mean y
    let numerator : ℚ := ((x.zip y).map (fun p => (p.1 - mean_x) * (p.2 - mean_y))).sum
    let sum_sq_x : ℚ := sqDevSum x mean_x
    let sum_sq_y : ℚ := sqDevSum y mean_y
    let denominator : ℝ := Real.sqrt ((sum_sq_x * sum_sq_y : ℚ) : ℝ)
    if denominator = 0 then 0 else (numerator : ℝ) / denominator

/-- Interpolation index `(p / 100) * (n - 1)` used by `calculate_percentile`
(`n - 1` is the C++ `size_t` subtraction, truncated at zero). -/
def pctIndex (n : ℕ) (p : ℚ) : ℚ :=
  (p / 100) * ((n - 1 : ℕ) : ℚ)

/-- `std::floor` of the interpolation index cast to `size_t`
(faithful for the non-negative indices reachable with `p ∈ [0,100]`). -/
def pctLower (n : ℕ) (p : ℚ) : ℕ :=
  (⌊pctIndex n p⌋).toNat

/-- `std::ceil` of the interpolation index cast to `size_t`
(faithful for the non-negative indices reachable with `p ∈ [0,100]`). -/
def pctUpper (n : ℕ) (p : ℚ) : ℕ :=
  (⌈pctIndex n p⌉).toNat

/-- `StatisticalAnalyzer::calculate_percentile`: linear-interpolation
percentile over a sorted by-value copy.  The unguarded vector accesses
`data[lower]` / `data[upper]` are modelled with `get?`, so an
out-of-bounds access surfaces as `none` instead of undefined behaviour. -/
def calculate_percentile (data : List ℚ) (p : ℚ) : Option ℚ :=
  if data = [] then some 0
  else
    let s := List.insertionSort (fun a b : ℚ => a ≤ b) data
    let idx := pctIndex data.length p
    let lower := pctLower data.length p
    let upper := pctUpper data.length p
    if lower = upper then s.get? lower
    else
      match s.get? lower, s.get? upper with
      | some a, some b => some (a * (1 - (idx - (lower : ℚ))) + b * (idx - (lower : ℚ)))
      | _, _ => none

end StatisticalAnalyzer

/-- Mirrors `struct ConsistencyMetrics`.  `seasons_played` (C++ `int`, always
assigned from a vector size) is a `ℕ`; the `sqrt`-derived fields are `ℝ`. -/
structure ConsistencyMetrics where
  player_name : String
  average_rating : ℚ
  std_deviation : ℝ
  consistency_score : ℝ
  cv_percentage : ℝ
  seasons_played : ℕ

/-- Mirrors `struct TeamPerformance`. -/
structure TeamPerformance where
  team_name : String
  season : String
  total_goals : Int
  total_assists : Int
  average_rating : ℚ
  total_matches : Int
  win_rate : ℚ
deriving DecidableEq, Repr

/-- Mirrors `struct PerformanceRanking`.  In the C++ aggregate the `rank`
field is left uninitialized until the ranking loop assigns it, so it is
modelled as `Option ℕ` with `none` for "never assigned". -/
structure PerformanceRanking where
  rank : Option ℕ
  player_name : String
  position : String
  score : ℝ
  average_rating : ℚ
  consistency_score : ℝ
  seasons_played : ℕ

/-- Weight constant `CONSISTENCY_WEIGHT = 0.4`. -/
def CONSISTENCY_WEIGHT : ℚ := 4 / 10

/-- Weight constant `AVERAGE_WEIGHT = 0.6`. -/
def AVERAGE_WEIGHT : ℚ := 6 / 10

namespace PerformanceAnalyzer

/-- The by-name index `players_by_name`: built by pushing each record of the
flat store in iteration order, so the bucket for `name` is exactly the
order-preserving filter of the store.  An absent key is the empty list. -/
def players_by_name (store : List PlayerStats) (name : String) : List PlayerStats :=
  store.filter (fun r => r.player_name = name)

/-- The by-team index `players_by_team`, likewise an order-preserving filter. -/
def players_by_team (store : List PlayerStats) (team : String) : List PlayerStats :=
  store.filter (fun r => r.team = team)

/-- The metric-selection `if`-chain in the body of the time-series loop:
`some` of the projected field for the four supported metric names,
`none` (no value pushed) otherwise. -/
def metricValue (metric : String) (stat : PlayerStats) : Option ℚ :=
  if metric = "rating" then some stat.rating
  else if metric = "goals" then some (stat.goals : ℚ)
  else if metric = "assists" then some (stat.assists : ℚ)
  else if metric = "goals_per_match" then some stat.goals_per_match
  else none

/-- The season comparison underlying the `std::sort` call in
`get_player_time_series` (comparator `a.season < b.season`; a conforming
output is sorted with respect to this non-strict version). -/
def seasonLE (a b : PlayerStats) : Prop :=
  a.season ≤ b.season

instance : DecidableRel seasonLE := fun a b => String.decidableLE a.season b.season

instance : IsTotal PlayerStats seasonLE := ⟨fun a b => le_total a.season b.season⟩

instance : IsTrans PlayerStats seasonLE := ⟨fun _ _ _ h h2 => le_trans h h2⟩

/-- The contract of the `std::sort` call on the copied record list: any
permutation of the input that is sorted by season label is a permitted
result; the relative order of records with equal season labels is
unspecified. -/
def stdSortAdmissible (input output : List PlayerStats) : Prop :=
  output.Perm input ∧ output.Sorted seasonLE

/-- `PerformanceAnalyzer::get_player_time_series`: empty series for an
unknown player; otherwise sorts a by-value copy of the player's records by
season (the `std::sort` call, modelled by the conforming `insertionSort`)
and pushes every season label plus the selected metric value (if the
metric is one of the four supported names). -/
def get_player_time_series (store : List PlayerStats) (player_name metric : String) :
    TimeSeriesData :=
  let recs := players_by_name store player_name
  if recs = [] then
    { seasons := [], values := [], metric_name := metric, player_name := player_name }
  else
    let player_seasons := List.insertionSort seasonLE recs
    { seasons := player_seasons.map (fun s => s.season)
      values := player_seasons.filterMap (metricValue metric)
      metric_name := metric
      player_name := player_name }

/-- `PerformanceAnalyzer::calculate_consistency`: zeroed sentinel metrics when
the rating time series has no values, otherwise mean / sample std-dev / CV% /
season count and `consistency_score = 100 - min 100 CV%`. -/
noncomputable def calculate_consistency (store : List PlayerStats) (player_name : String) :
    ConsistencyMetrics :=
  let ts := get_player_time_series store player_name "rating"
  if ts.values = [] then
    { player_name := player_name, average_rating := 0, std_deviation := 0
      consistency_score := 0, cv_percentage := 0, seasons_played := 0 }
  else
    { player_name := player_name
      average_rating := ts.mean
      std_deviation := ts.std_dev
      cv_percentage := ts.coefficient_of_variation
      seasons_played := ts.values.length
      consistency_score := 100 - min 100 ts.coefficient_of_variation }

/-- Distinct player names in `std::map` iteration order, i.e. sorted
ascending (the de-duplicated name multiset sorted lexicographically). -/
def playerNames (store : List PlayerStats) : List String :=
  List.insertionSort (fun a b : String => a ≤ b) (store.map (fun r => r.player_name)).dedup

/-- Names of eligible players: at least 2 recorded seasons.  This is the
enumeration underlying `get_all_consistency_metrics`. -/
def eligibleNames (store : List PlayerStats) : List String :=
  (playerNames store).filter (fun n => 2 ≤ (players_by_name store n).length)

/-- `PerformanceAnalyzer::get_all_consistency_metrics`: consistency metrics
for every player with at least 2 seasons, in map-key (ascending name) order. -/
noncomputable def get_all_consistency_metrics (store : List PlayerStats) :
    List ConsistencyMetrics :=
  (playerNames store).filterMap (fun n =>
    if 2 ≤ (players_by_name store n).length then some (calculate_consistency store n)
    else none)

/-- Construction of one `PerformanceRanking` entry in the ranking loop:
composite score `avg * AVERAGE_WEIGHT + consistency * CONSISTENCY_WEIGHT`,
position from the player's first indexed record, `rank` not yet assigned. -/
noncomputable def mkRanking (store : List PlayerStats) (m : ConsistencyMetrics) :
    PerformanceRanking :=
  { rank := none
    player_name := m.player_name
    position :=
      match players_by_name store m.player_name with
      | [] => ""
      | r :: _ => r.position
    score := (m.average_rating : ℝ) * (AVERAGE_WEIGHT : ℝ) +
      m.consistency_score * (CONSISTENCY_WEIGHT : ℝ)
    average_rating := m.average_rating
    consistency_score := m.consistency_score
    seasons_played := m.seasons_played }

/-- The comparator of the ranking `std::sort` with `std::greater`
(descending composite score), in the non-strict form a conforming output
is sorted by. -/
def scoreGE (a b : PerformanceRanking) : Prop :=
  b.score ≤ a.score

noncomputable instance : DecidableRel scoreGE :=
  fun a b => Real.decidableLE b.score a.score

instance : IsTotal PerformanceRanking scoreGE := ⟨fun a b => le_total b.score a.score⟩

instance : IsTrans PerformanceRanking scoreGE := ⟨fun _ _ _ h h2 => le_trans h2 h⟩

/-- The rank-assignment loop: entry `i` (counting from `start`) receives rank
`i + 1` while `i < top_n`; later entries keep their unassigned rank. -/
def assignRanks (top_n : ℕ) : ℕ → List PerformanceRanking → List PerformanceRanking
  | _, [] => []
  | i, r :: rest =>
    (if i < top_n then { r with rank := some (i + 1) } else r) :: assignRanks top_n (i + 1) rest

/-- `PerformanceAnalyzer::get_top_consistent_players`: build one ranking
entry per eligible player, sort descending by composite score, assign ranks
`1..` to the first `top_n` entries, and truncate (`resize`) to `top_n`
entries when there are more. -/
noncomputable def get_top_consistent_players (store : List PlayerStats) (top_n : ℕ) :
    List PerformanceRanking :=
  let rankings := (get_all_consistency_metrics store).map (mkRanking store)
  let sorted := List.insertionSort scoreGE rankings
  (assignRanks top_n 0 sorted).take top_n

/-- Key of a record in the `(team, season)` accumulation map. -/
def tsKey (p : PlayerStats) : String × String :=
  (p.team, p.season)

/-- One accumulation step of the team-by-season loop body: goals, assists
and matches are summed and `average_rating` accumulates the raw rating sum. -/
def bumpPerf (perf : TeamPerformance) (p : PlayerStats) : TeamPerformance :=
  { perf with
    team_name := p.team
    season := p.season
    total_goals := perf.total_goals + p.goals
    total_assists := perf.total_assists + p.assists
    total_matches := perf.total_matches + p.matches_played
    average_rating := perf.average_rating + p.rating }

/-- The value-initialized `TeamPerformance` that `std::map::operator[]`
creates for a fresh `(team, season)` key. -/
def emptyPerf : TeamPerformance :=
  { team_name := "", season := "", total_goals := 0, total_assists := 0
    average_rating := 0, total_matches := 0, win_rate := 0 }

/-- One step of the accumulation over the flat record list: update the
existing association entry for the record's `(team, season)` key, or create
a fresh one. -/
def updAssoc (acc : List ((String × String) × TeamPerformance)) (p : PlayerStats) :
    List ((String × String) × TeamPerformance) :=
  match acc with
  | [] => [(tsKey p, bumpPerf emptyPerf p)]
  | (k, perf) :: rest =>
    if k = tsKey p then (k, bumpPerf perf p) :: rest else (k, perf) :: updAssoc rest p

/-- The fully accumulated `(team, season) → TeamPerformance` association of
`get_team_performance_by_season` before the final averaging pass. -/
def team_season_fold (store : List PlayerStats) :
    List ((String × String) × TeamPerformance) :=
  store.foldl updAssoc []

/-- `PerformanceAnalyzer::get_team_performance_by_season`: accumulate per
`(team, season)` group, then divide each group's accumulated rating by the
size of `players_by_team[team]` — the team's total record count across all
seasons. -/
def get_team_performance_by_season (store : List PlayerStats) : List TeamPerformance :=
  (team_season_fold store).map (fun kp =>
    let perf := kp.2
    let player_count := (players_by_team store perf.team_name).length
    if 0 < player_count then { perf with average_rating := perf.average_rating / player_count }
    else perf)

/-- `PerformanceAnalyzer::calculate_player_correlation`: 0 if either player's
series has no values; otherwise pair up values over common season labels
(first match wins, mirroring the `break` in the inner loop) and correlate. -/
noncomputable def calculate_player_correlation (store : List PlayerStats)
    (player1 player2 metric : String) : ℝ :=
  let ts1 := get_player_time_series store player1 metric
  let ts2 := get_player_time_series store player2 metric
  if ts1.values = [] ∨ ts2.values = [] then 0
  else
    let pairs := (ts1.seasons.zip ts1.values).filterMap (fun sv =>
      ((ts2.seasons.zip ts2.values).find? (fun sv2 => sv2.1 = sv.1)).map
        (fun sv2 => (sv.2, sv2.2)))
    StatisticalAnalyzer.calculate_correlation (pairs.map (fun q => q.1))
      (pairs.map (fun q => q.2))

end PerformanceAnalyzer
/-- C4 witness: a store with two records of player `A` queried with the
unsupported metric `minutes`, and the unknown player `Ghost`. -/
def c4_store : List PlayerStats :=
  [{ player_id := "1", player_name := "A", team := "T", position := "FW",
     season := "S1", matches_played := 10, minutes_played := 900, goals := 4,
     assists := 2, shots := 9, shots_on_target := 5, passes := 100,
     pass_accuracy := 80, tackles := 3, interceptions := 2,
     goals_per_match := 2 / 5, assists_per_match := 1 / 5, rating := 80 },
   { player_id := "1", player_name := "A", team := "T", position := "FW",
     season := "S2", matches_played := 10, minutes_played := 900, goals := 6,
     assists := 1, shots := 9, shots_on_target := 5, passes := 100,
     pass_accuracy := 80, tackles := 3, interceptions := 2,
     goals_per_match := 3 / 5, assists_per_match := 1 / 10, rating := 84 }]

/-- C6 witness: the unknown player `Ghost` against a one-record store. -/
def c6_store : List PlayerStats :=
  [{ player_id := "1", player_name := "A", team := "T", position := "FW",
     season := "S1", matches_played := 10, minutes_played := 900, goals := 4,
     assists := 2, shots := 9, shots_on_target := 5, passes := 100,
     pass_accuracy := 80, tackles := 3, interceptions := 2,
     goals_per_match := 2 / 5, assists_per_match := 1 / 5, rating := 80 }]

/-- C1 counterexample: in a store holding exactly one season for player
`Solo`, `calculate_consistency` does *not* return the zeroed sentinel — it
reports `seasons_played = 1` (the sentinel is only produced when the rating
series is empty, i.e. for zero records). -/
def c1_store : List PlayerStats :=
  [{ player_id := "1", player_name := "Solo", team := "T", position := "FW",
     season := "2020-21", matches_played := 10, minutes_played := 900, goals := 4,
     assists := 2, shots := 9, shots_on_target := 5, passes := 100,
     pass_accuracy := 80, tackles := 3, interceptions := 2,
     goals_per_match := 2 / 5, assists_per_match := 1 / 5, rating := 80 }]

/-- Two records of one player for the same season (different ids/ratings),
used to exhibit the unspecified tie order of the `std::sort` contract. -/
def c5_recA : PlayerStats :=
  { player_id := "A", player_name := "P", team := "T", position := "FW",
    season := "S1", matches_played := 10, minutes_played := 900, goals := 4,
    assists := 2, shots := 9, shots_on_target := 5, passes := 100,
    pass_accuracy := 80, tackles := 3, interceptions := 2,
    goals_per_match := 2 / 5, assists_per_match := 1 / 5, rating := 80 }

def c5_recB : PlayerStats :=
  { player_id := "B", player_name := "P", team := "T", position := "FW",
    season := "S1", matches_played := 10, minutes_played := 900, goals := 6,
    assists := 1, shots := 9, shots_on_target := 5, passes := 100,
    pass_accuracy := 80, tackles := 3, interceptions := 2,
    goals_per_match := 3 / 5, assists_per_match := 1 / 10, rating := 90 }

/-- C5 amended witness: player `A` with two seasons, metric `rating`. -/
def c5_store : List PlayerStats :=
  [{ player_id := "1", player_name := "A", team := "T", position := "FW",
     season := "S2", matches_played := 10, minutes_played := 900, goals := 4,
     assists := 2, shots := 9, shots_on_target := 5, passes := 100,
     pass_accuracy := 80, tackles := 3, interceptions := 2,
     goals_per_match := 2 / 5, assists_per_match := 1 / 5, rating := 80 },
   { player_id := "1", player_name := "A", team := "T", position := "FW",
     season := "S1", matches_played := 10, minutes_played := 900, goals := 6,
     assists := 1, shots := 9, shots_on_target := 5, passes := 100,
     pass_accuracy := 80, tackles := 3, interceptions := 2,
     goals_per_match := 3 / 5, assists_per_match := 1 / 10, rating := 84 }]

/-- Forgetting the rank field, used to compare a ranked list with the raw
ranking pool. -/
def stripRank (r : PerformanceRanking) : PerformanceRanking :=
  { r with rank := none }

/-- C3 witness store: one eligible player (two seasons), queried with
`n = 5 > 1`. -/
def c3_store : List PlayerStats :=
  [{ player_id := "1", player_name := "A", team := "T", position := "FW",
     season := "S1", matches_played := 10, minutes_played := 900, goals := 4,
     assists := 2, shots := 9, shots_on_target := 5, passes := 100,
     pass_accuracy := 80, tackles := 3, interceptions := 2,
     goals_per_match := 2 / 5, assists_per_match := 1 / 5, rating := 80 },
   { player_id := "1", player_name := "A", team := "T", position := "FW",
     season := "S2", matches_played := 10, minutes_played := 900, goals := 6,
     assists := 1, shots := 9, shots_on_target := 5, passes := 100,
     pass_accuracy := 80, tackles := 3, interceptions := 2,
     goals_per_match := 3 / 5, assists_per_match := 1 / 10, rating := 84 }]

/-- Lookup in the association list modelling the `(team, season)` map. -/
def listLookup (l : List ((String × String) × TeamPerformance)) (k : String × String) :
    Option TeamPerformance :=
  match l with
  | [] => none
  | (k2, perf) :: rest => if k2 = k then some perf else listLookup rest k

/-- Records of the store belonging to one `(team, season)` group. -/
def groupRecords (store : List PlayerStats) (k : String × String) : List PlayerStats :=
  store.filter (fun p => PerformanceAnalyzer.tsKey p = k)

/-- Keys of the association list. -/
def assocKeys (l : List ((String × String) × TeamPerformance)) : List (String × String) :=
  l.map (fun kp => kp.1)

/-- C2 witness store: one team, 2 seasons × 3 players (6 records), with
different per-season rating sums so the all-seasons denominator is visible
(season `S2` sums to 230 and is divided by 6, giving 115/3, not 230/3). -/
def c2_store : List PlayerStats :=
  [{ player_id := "A", player_name := "A", team := "T", position := "FW",
     season := "S1", matches_played := 10, minutes_played := 900, goals := 2,
     assists := 1, shots := 5, shots_on_target := 3, passes := 100,
     pass_accuracy := 80, tackles := 1, interceptions := 1,
     goals_per_match := 1 / 5, assists_per_match := 1 / 10, rating := 80 },
   { player_id := "B", player_name := "B", team := "T", position := "MF",
     season := "S1", matches_played := 10, minutes_played := 900, goals := 2,
     assists := 1, shots := 5, shots_on_target := 3, passes := 100,
     pass_accuracy := 80, tackles := 1, interceptions := 1,
     goals_per_match := 1 / 5, assists_per_match := 1 / 10, rating := 70 },
   { player_id := "C", player_name := "C", team := "T", position := "DF",
     season := "S1", matches_played := 10, minutes_played := 900, goals := 2,
     assists := 1, shots := 5, shots_on_target := 3, passes := 100,
     pass_accuracy := 80, tackles := 1, interceptions := 1,
     goals_per_match := 1 / 5, assists_per_match := 1 / 10, rating := 60 },
   { player_id := "A", player_name := "A", team := "T", position := "FW",
     season := "S2", matches_played := 10, minutes_played := 900, goals := 2,
     assists := 1, shots := 5, shots_on_target := 3, passes := 100,
     pass_accuracy := 80, tackles := 1, interceptions := 1,
     goals_per_match := 1 / 5, assists_per_match := 1 / 10, rating := 90 },
   { player_id := "B", player_name := "B", team := "T", position := "MF",
     season := "S2", matches_played := 10, minutes_played := 900, goals := 2,
     assists := 1, shots := 5, shots_on_target := 3, passes := 100,
     pass_accuracy := 80, tackles := 1, interceptions := 1,
     goals_per_match := 1 / 5, assists_per_match := 1 / 10, rating := 75 },
   { player_id := "C", player_name := "C", team := "T", position := "DF",
     season := "S2", matches_played := 10, minutes_played := 900, goals := 2,
     assists := 1, shots := 5, shots_on_target := 3, passes := 100,
     pass_accuracy := 80, tackles := 1, interceptions := 1,
     goals_per_match := 1 / 5, assists_per_match := 1 / 10, rating := 65 }]

/-- The `(T, S2)` entry produced for `c2_store`. -/
def c2_entry : TeamPerformance :=
  { team_name := "T", season := "S2", total_goals := 6, total_assists := 3,
    average_rating := 115 / 3, total_matches := 30, win_rate := 0 }


example : StatisticalAnalyzer.calculate_percentile [1, 2, 3] 50 = some 2 := by
  with_unfolding_all decide

example : StatisticalAnalyzer.calculate_percentile [1, 2, 3, 4] 50 =
    some (StatisticalAnalyzer.calculate_median [1, 2, 3, 4]) := by
  with_unfolding_all decide

section Helpers

/-- A list of non-negative rationals with sum zero is pointwise zero. -/
lemma all_zero_of_sum_nonneg_zero {l : List ℚ} (hnn : ∀ v ∈ l, 0 ≤ v)
    (hz : l.sum = 0) : ∀ v ∈ l, v = 0 := by
  induction l with
  | nil => intro v hv; cases hv
  | cons a t ih =>
    have hta : 0 ≤ a := hnn a (List.mem_cons_self a t)
    have htt : ∀ v ∈ t, 0 ≤ v := fun v hv => hnn v (List.mem_cons_of_mem a hv)
    have hts : 0 ≤ t.sum := List.sum_nonneg htt
    rw [List.sum_cons] at hz
    have ha0 : a = 0 := le_antisymm (by linarith) hta
    have ht0 : t.sum = 0 := by linarith
    intro v hv
    rcases List.mem_cons.1 hv with rfl | hv
    · exact ha0
    · exact ih htt ht0 v hv

lemma sqDevSum_nonneg (xs : List ℚ) (m : ℚ) : 0 ≤ sqDevSum xs m := by
  refine List.sum_nonneg ?_
  intro v hv
  rcases List.mem_map.1 hv with ⟨a, _, rfl⟩
  exact mul_self_nonneg _

/-- Every element equal to the reference point gives a zero deviation sum. -/
lemma sqDevSum_eq_zero {xs : List ℚ} {m : ℚ} (h : ∀ a ∈ xs, a = m) :
    sqDevSum xs m = 0 := by
  refine List.sum_eq_zero ?_
  intro v hv
  rcases List.mem_map.1 hv with ⟨a, ha, rfl⟩
  rw [h a ha]
  ring

/-- Conversely, a zero deviation sum forces every element onto the mean. -/
lemma eq_of_sqDevSum_eq_zero {xs : List ℚ} {m : ℚ} (h : sqDevSum xs m = 0) :
    ∀ a ∈ xs, a = m := by
  intro a ha
  have hz : ∀ v ∈ xs.map (fun v => (v - m) * (v - m)), v = 0 := by
    refine all_zero_of_sum_nonneg_zero ?_ h
    intro v hv
    rcases List.mem_map.1 hv with ⟨b, _, rfl⟩
    exact mul_self_nonneg _
  have : (a - m) * (a - m) = 0 := hz _ (List.mem_map_of_mem _ ha)
  have := mul_self_eq_zero.1 this
  linarith

lemma calculate_mean_const {xs : List ℚ} {c : ℚ} (hne : xs ≠ [])
    (h : ∀ a ∈ xs, a = c) : StatisticalAnalyzer.calculate_mean xs = c := by
  unfold StatisticalAnalyzer.calculate_mean
  rw [if_neg hne]
  have hsum : xs.sum = xs.length • c := List.sum_eq_card_nsmul xs c h
  have hlen : (xs.length : ℚ) ≠ 0 := by
    simpa using (List.length_pos.2 hne).ne'
  rw [hsum, nsmul_eq_mul, mul_comm, mul_div_assoc, div_self hlen, mul_one]

/-- A `filterMap` whose function is everywhere `some` is a `map`. -/
lemma filterMap_total {α β : Type} {f : α → Option β} {g : α → β}
    (h : ∀ a, f a = some (g a)) : ∀ l : List α, l.filterMap f = l.map g := by
  intro l
  induction l with
  | nil => rfl
  | cons a t ih => rw [List.filterMap_cons, h a, List.map_cons, ih]

/-- A `filterMap` guarded by a decidable condition is a `map` over a `filter`. -/
lemma filterMap_if_eq_map_filter {α β : Type} (p : α → Prop) [DecidablePred p]
    (f : α → β) :
    ∀ l : List α,
      (l.filterMap fun a => if p a then some (f a) else none) =
        (l.filter fun a => p a).map f := by
  intro l
  induction l with
  | nil => rfl
  | cons a t ih =>
    by_cases hpa : p a
    · rw [List.filterMap_cons, if_pos hpa, List.filter_cons,
        if_pos (by simpa using hpa), List.map_cons, ih]
    · rw [List.filterMap_cons, if_neg hpa, List.filter_cons,
        if_neg (by simpa using hpa), ih]

/-- Two distinct members force a list length of at least 2. -/
lemma two_le_length_of_mem_ne {xs : List ℚ} {a b : ℚ} (ha : a ∈ xs) (hb : b ∈ xs)
    (hab : a ≠ b) : 2 ≤ xs.length := by
  match xs with
  | [] => cases ha
  | [v] =>
    rw [List.mem_singleton] at ha hb
    exact absurd (ha.trans hb.symm) hab
  | v :: w :: t => simp [Nat.succ_le_succ, Nat.le_add_left]

/-- Zipping a list with itself pairs each element with itself. -/
lemma zip_self_map {α β : Type} (f : α × α → β) :
    ∀ l : List α, (l.zip l).map f = l.map (fun v => f (v, v)) := by
  intro l
  induction l with
  | nil => rfl
  | cons a t ih => rw [List.zip_cons_cons, List.map_cons, List.map_cons, ih]

end Helpers

/-- C7: for every non-empty sequence, `calculate_std_dev` is non-negative;
for every constant sequence, `calculate_std_dev` is 0 and
`coefficient_of_variation` is 0; for every sequence with fewer than 2 points,
`calculate_std_dev` is 0. -/
theorem claim_C7 (xs : List ℚ) (c : ℚ) (ts : TimeSeriesData) :
    (xs ≠ [] → 0 ≤ StatisticalAnalyzer.calculate_std_dev xs) ∧
    ((∀ a ∈ xs, a = c) → StatisticalAnalyzer.calculate_std_dev xs = 0) ∧
    ((∀ a ∈ ts.values, a = c) →
      ts.std_dev = 0 ∧ ts.coefficient_of_variation = 0) ∧
    (xs.length < 2 → StatisticalAnalyzer.calculate_std_dev xs = 0) := by
  have hconst : ∀ ys : List ℚ, (∀ a ∈ ys, a = c) →
      StatisticalAnalyzer.calculate_std_dev ys = 0 := by
    intro ys hy
    unfold StatisticalAnalyzer.calculate_std_dev
    by_cases hlen : ys.length < 2
    · rw [if_pos hlen]
    · rw [if_neg hlen]
      have hne : ys ≠ [] := by
        intro h; rw [h] at hlen; exact hlen (by norm_num)
      have hmean : StatisticalAnalyzer.calculate_mean ys = c := calculate_mean_const hne hy
      rw [hmean, sqDevSum_eq_zero hy]
      norm_num
  have hbridge : ts.std_dev = StatisticalAnalyzer.calculate_std_dev ts.values := rfl
  refine ⟨fun _ => ?_, hconst xs, fun hts => ?_, fun hlen => ?_⟩
  · unfold StatisticalAnalyzer.calculate_std_dev
    by_cases hlen : xs.length < 2
    · rw [if_pos hlen]
    · rw [if_neg hlen]; exact Real.sqrt_nonneg _
  · have hsd : ts.std_dev = 0 := by rw [hbridge]; exact hconst ts.values hts
    refine ⟨hsd, ?_⟩
    unfold TimeSeriesData.coefficient_of_variation
    by_cases hm : ts.mean = 0
    · rw [if_pos hm]
    · rw [if_neg hm, hsd, zero_div, zero_mul]
  · unfold StatisticalAnalyzer.calculate_std_dev
    rw [if_pos hlen]

/-- C7 witness: concrete instantiation at `xs = [3]`, `c = 3` and a constant
two-point time series. -/
theorem claim_C7_witness :
    (0 ≤ StatisticalAnalyzer.calculate_std_dev [3]) ∧
    StatisticalAnalyzer.calculate_std_dev [3] = 0 ∧
    (TimeSeriesData.std_dev ⟨[], [3, 3], "r", "p"⟩ = 0 ∧
      TimeSeriesData.coefficient_of_variation ⟨[], [3, 3], "r", "p"⟩ = 0) ∧
    StatisticalAnalyzer.calculate_std_dev [3] = 0 := by
  obtain ⟨h1, h2, h3, h4⟩ := claim_C7 [3] 3 ⟨[], [3, 3], "r", "p"⟩
  refine ⟨h1 (by simp), h2 ?_, h3 ?_, h4 (by simp)⟩
  · intro a ha; simpa using ha
  · intro a ha
    rcases List.mem_cons.1 ha with rfl | ha
    · rfl
    · simpa using ha

/-- C10: with non-empty input and a percentile in `[0, 100]`, both index
accesses of `calculate_percentile` are in bounds (the out-of-bounds branch,
modelled by `none`, is unreachable), and the sort runs on a by-value copy of
the caller's list. -/
theorem claim_C10 (data : List ℚ) (p : ℚ) (h0 : data ≠ []) (h1 : 0 ≤ p)
    (h2 : p ≤ 100) :
    StatisticalAnalyzer.pctLower data.length p < data.length ∧
    StatisticalAnalyzer.pctUpper data.length p < data.length ∧
    (StatisticalAnalyzer.calculate_percentile data p).isSome = true := by
  have hlen : 1 ≤ data.length := List.length_pos.2 h0
  have hidx0 : 0 ≤ StatisticalAnalyzer.pctIndex data.length p := by
    unfold StatisticalAnalyzer.pctIndex
    exact mul_nonneg (div_nonneg h1 (by norm_num)) (Nat.cast_nonneg _)
  have hidx1 : StatisticalAnalyzer.pctIndex data.length p ≤
      ((data.length - 1 : ℕ) : ℚ) := by
    unfold StatisticalAnalyzer.pctIndex
    have hp1 : p / 100 ≤ 1 := by
      rw [div_le_one (by norm_num : (0 : ℚ) < 100)]; exact h2
    calc (p / 100) * ((data.length - 1 : ℕ) : ℚ)
        ≤ 1 * ((data.length - 1 : ℕ) : ℚ) :=
          mul_le_mul_of_nonneg_right hp1 (Nat.cast_nonneg _)
      _ = ((data.length - 1 : ℕ) : ℚ) := one_mul _
  have hlow : StatisticalAnalyzer.pctLower data.length p < data.length := by
    unfold StatisticalAnalyzer.pctLower
    have hfl : ⌊StatisticalAnalyzer.pctIndex data.length p⌋ ≤
        ((data.length - 1 : ℕ) : ℤ) := by
      have := Int.floor_le_floor hidx1
      rwa [Int.floor_natCast] at this
    have : (⌊StatisticalAnalyzer.pctIndex data.length p⌋).toNat ≤ data.length - 1 :=
      Int.toNat_le.2 hfl
    omega
  have hup : StatisticalAnalyzer.pctUpper data.length p < data.length := by
    unfold StatisticalAnalyzer.pctUpper
    have hcl : ⌈StatisticalAnalyzer.pctIndex data.length p⌉ ≤
        ((data.length - 1 : ℕ) : ℤ) := by
      rw [Int.ceil_le]
      push_cast
      exact_mod_cast hidx1
    have : (⌈StatisticalAnalyzer.pctIndex data.length p⌉).toNat ≤ data.length - 1 :=
      Int.toNat_le.2 hcl
    omega
  refine ⟨hlow, hup, ?_⟩
  unfold StatisticalAnalyzer.calculate_percentile
  rw [if_neg h0]
  have hslen : (List.insertionSort (fun a b : ℚ => a ≤ b) data).length = data.length :=
    List.length_insertionSort _ _
  by_cases heq : StatisticalAnalyzer.pctLower data.length p =
      StatisticalAnalyzer.pctUpper data.length p
  · rw [if_pos heq]
    rw [List.get?_eq_get (by rw [hslen]; exact hlow)]
    rfl
  · rw [if_neg heq]
    rw [List.get?_eq_get (by rw [hslen]; exact hlow),
      List.get?_eq_get (by rw [hslen]; exact hup)]
    rfl

/-- C10 witness: concrete instantiation at `data = [1, 2]`, `p = 25`. -/
theorem claim_C10_witness :
    StatisticalAnalyzer.pctLower 2 25 < 2 ∧
    StatisticalAnalyzer.pctUpper 2 25 < 2 ∧
    (StatisticalAnalyzer.calculate_percentile [1, 2] 25).isSome = true := by
  have h := claim_C10 [1, 2] 25 (by simp) (by norm_num) (by norm_num)
  simpa using h

lemma pctIndex_fifty (n : ℕ) :
    StatisticalAnalyzer.pctIndex n 50 = ((n - 1 : ℕ) : ℚ) / 2 := by
  unfold StatisticalAnalyzer.pctIndex
  ring

lemma pct_fifty_odd {n m : ℕ} (hn : n = 2 * m + 1) :
    StatisticalAnalyzer.pctLower n 50 = m ∧ StatisticalAnalyzer.pctUpper n 50 = m := by
  have hidx : StatisticalAnalyzer.pctIndex n 50 = (m : ℚ) := by
    rw [pctIndex_fifty]
    have h1 : n - 1 = 2 * m := by omega
    rw [h1]
    push_cast
    ring
  constructor
  · unfold StatisticalAnalyzer.pctLower
    rw [hidx, Int.floor_natCast, Int.toNat_natCast]
  · unfold StatisticalAnalyzer.pctUpper
    rw [hidx, Int.ceil_natCast, Int.toNat_natCast]

lemma pct_fifty_even {n m : ℕ} (hm : 1 ≤ m) (hn : n = 2 * m) :
    StatisticalAnalyzer.pctLower n 50 = m - 1 ∧
    StatisticalAnalyzer.pctUpper n 50 = m ∧
    StatisticalAnalyzer.pctIndex n 50 = (m : ℚ) - 1 / 2 := by
  have hidx : StatisticalAnalyzer.pctIndex n 50 = (m : ℚ) - 1 / 2 := by
    rw [pctIndex_fifty]
    have h1 : n - 1 = 2 * m - 1 := by omega
    rw [h1, Nat.cast_sub (by omega : 1 ≤ 2 * m)]
    push_cast
    ring
  have hfloor : ⌊StatisticalAnalyzer.pctIndex n 50⌋ = (m : ℤ) - 1 := by
    rw [hidx, Int.floor_eq_iff]
    constructor
    · push_cast
      linarith
    · push_cast
      linarith
  have hceil : ⌈StatisticalAnalyzer.pctIndex n 50⌉ = (m : ℤ) := by
    rw [hidx, Int.ceil_eq_iff]
    constructor
    · push_cast
      linarith
    · push_cast
      linarith
  refine ⟨?_, ?_, hidx⟩
  · unfold StatisticalAnalyzer.pctLower
    rw [hfloor]
    omega
  · unfold StatisticalAnalyzer.pctUpper
    rw [hceil, Int.toNat_natCast]

/-- C8: for every non-empty sequence, the 50th percentile equals the median —
the middle element of the sorted copy for odd length, the mean of the two
middle elements for even length. -/
theorem claim_C8 (xs : List ℚ) (h : xs ≠ []) :
    StatisticalAnalyzer.calculate_percentile xs 50 =
      some (StatisticalAnalyzer.calculate_median xs) := by
  have hlen : 1 ≤ xs.length := List.length_pos.2 h
  have hslen : (List.insertionSort (fun a b : ℚ => a ≤ b) xs).length = xs.length :=
    List.length_insertionSort _ _
  simp only [StatisticalAnalyzer.calculate_percentile,
    StatisticalAnalyzer.calculate_median, if_neg h]
  rcases Nat.even_or_odd xs.length with he | ho
  · obtain ⟨m, hm⟩ := he
    have hm1 : 1 ≤ m := by omega
    have hn : xs.length = 2 * m := by omega
    obtain ⟨hlow, hup, hidx⟩ := pct_fifty_even hm1 hn
    have hmod : xs.length % 2 = 0 := by omega
    have hlm : m - 1 < xs.length := by omega
    have hum : m < xs.length := by omega
    rw [hlow, hup, hidx, if_neg (by omega : ¬(m - 1 = m)), if_pos hmod,
      List.get?_eq_get (by rw [hslen]; exact hlm),
      List.get?_eq_get (by rw [hslen]; exact hum)]
    have hdiv : xs.length / 2 = m := by omega
    rw [hdiv,
      List.getD_eq_get _ _ (by rw [hslen]; exact hlm),
      List.getD_eq_get _ _ (by rw [hslen]; exact hum)]
    rw [Nat.cast_sub hm1]
    push_cast
    ring_nf
  · obtain ⟨m, hm⟩ := ho
    have hn : xs.length = 2 * m + 1 := by omega
    obtain ⟨hlow, hup⟩ := pct_fifty_odd hn
    have hmod : ¬(xs.length % 2 = 0) := by omega
    have hum : m < xs.length := by omega
    rw [hlow, hup, if_pos rfl, if_neg hmod,
      List.get?_eq_get (by rw [hslen]; exact hum)]
    have hdiv : xs.length / 2 = m := by omega
    rw [hdiv, List.getD_eq_get _ _ (by rw [hslen]; exact hum)]

/-- C8 witness: concrete instantiations at an odd-length and an even-length
list. -/
theorem claim_C8_witness :
    StatisticalAnalyzer.calculate_percentile [3, 1, 2] 50 =
      some (StatisticalAnalyzer.calculate_median [3, 1, 2]) ∧
    StatisticalAnalyzer.calculate_percentile [4, 1, 3, 2] 50 =
      some (StatisticalAnalyzer.calculate_median [4, 1, 3, 2]) :=
  ⟨claim_C8 [3, 1, 2] (by simp), claim_C8 [4, 1, 3, 2] (by simp)⟩

/-- C9: `calculate_correlation` is symmetric in its two arguments, and the
self-correlation of any sequence with at least two distinct values is 1. -/
theorem claim_C9 (x y xs : List ℚ) (a b : ℚ) :
    StatisticalAnalyzer.calculate_correlation x y =
      StatisticalAnalyzer.calculate_correlation y x ∧
    (a ∈ xs → b ∈ xs → a ≠ b →
      StatisticalAnalyzer.calculate_correlation xs xs = 1) := by
  constructor
  · by_cases hlen : x.length = y.length
    · by_cases h2 : x.length < 2
      · simp only [StatisticalAnalyzer.calculate_correlation]
        rw [if_pos (Or.inr h2), if_pos (Or.inr (hlen ▸ h2))]
      · simp only [StatisticalAnalyzer.calculate_correlation]
        have hnum : ((y.zip x).map (fun p =>
            (p.1 - StatisticalAnalyzer.calculate_mean y) *
              (p.2 - StatisticalAnalyzer.calculate_mean x))).sum =
            ((x.zip y).map (fun p =>
            (p.1 - StatisticalAnalyzer.calculate_mean x) *
              (p.2 - StatisticalAnalyzer.calculate_mean y))).sum := by
          rw [← List.zip_swap x y, List.map_map]
          refine congrArg List.sum (List.map_congr_left ?_)
          intro p _
          simp only [Function.comp_apply, Prod.fst_swap, Prod.snd_swap]
          ring
        have hprod : sqDevSum y (StatisticalAnalyzer.calculate_mean y) *
            sqDevSum x (StatisticalAnalyzer.calculate_mean x) =
            sqDevSum x (StatisticalAnalyzer.calculate_mean x) *
            sqDevSum y (StatisticalAnalyzer.calculate_mean y) := mul_comm _ _
        rw [hlen, hnum, hprod]
    · simp only [StatisticalAnalyzer.calculate_correlation]
      rw [if_pos (Or.inl hlen), if_pos (Or.inl (Ne.symm hlen))]
  · intro ha hb hab
    have h2 : 2 ≤ xs.length := two_le_length_of_mem_ne ha hb hab
    have hS : 0 ≤ sqDevSum xs (StatisticalAnalyzer.calculate_mean xs) :=
      sqDevSum_nonneg xs _
    have hSne : sqDevSum xs (StatisticalAnalyzer.calculate_mean xs) ≠ 0 := by
      intro h0
      exact hab ((eq_of_sqDevSum_eq_zero h0 a ha).trans
        (eq_of_sqDevSum_eq_zero h0 b hb).symm)
    simp only [StatisticalAnalyzer.calculate_correlation]
    rw [if_neg (by push_neg; exact ⟨rfl, by omega⟩)]
    have hnum : ((xs.zip xs).map (fun p =>
        (p.1 - StatisticalAnalyzer.calculate_mean xs) *
          (p.2 - StatisticalAnalyzer.calculate_mean xs))).sum =
        sqDevSum xs (StatisticalAnalyzer.calculate_mean xs) := by
      rw [zip_self_map]
      rfl
    rw [hnum]
    have hsqrt : Real.sqrt (((sqDevSum xs (StatisticalAnalyzer.calculate_mean xs) *
        sqDevSum xs (StatisticalAnalyzer.calculate_mean xs) : ℚ)) : ℝ) =
        ((sqDevSum xs (StatisticalAnalyzer.calculate_mean xs) : ℚ) : ℝ) := by
      push_cast
      exact Real.sqrt_mul_self (by exact_mod_cast hS)
    rw [hsqrt, if_neg (by exact_mod_cast hSne)]
    exact div_self (by exact_mod_cast hSne)

/-- C9 witness: symmetry at `[5]`, `[7]` and self-correlation 1 at `[1, 2]`. -/
theorem claim_C9_witness :
    StatisticalAnalyzer.calculate_correlation [5] [7] =
      StatisticalAnalyzer.calculate_correlation [7] [5] ∧
    StatisticalAnalyzer.calculate_correlation [1, 2] [1, 2] = 1 := by
  obtain ⟨h1, h2⟩ := claim_C9 [5] [7] [1, 2] 1 2
  exact ⟨h1, h2 (by simp) (by simp) (by norm_num)⟩

/-- C4: for a known player and an unsupported metric name, the series keeps
one season entry per record while the values sequence is empty; for an
unknown player both sequences are empty. -/
theorem claim_C4 (store : List PlayerStats) (p m : String) :
    (PerformanceAnalyzer.players_by_name store p ≠ [] →
      m ∉ (["rating", "goals", "assists", "goals_per_match"] : List String) →
      (PerformanceAnalyzer.get_player_time_series store p m).values = [] ∧
      (PerformanceAnalyzer.get_player_time_series store p m).seasons.length =
        (PerformanceAnalyzer.players_by_name store p).length) ∧
    (PerformanceAnalyzer.players_by_name store p = [] →
      (PerformanceAnalyzer.get_player_time_series store p m).seasons = [] ∧
      (PerformanceAnalyzer.get_player_time_series store p m).values = []) := by
  constructor
  · intro hne hm
    simp only [List.mem_cons, List.mem_singleton, not_or] at hm
    obtain ⟨hm1, hm2, hm3, hm4⟩ := hm
    have hmv : ∀ r, PerformanceAnalyzer.metricValue m r = none := by
      intro r
      unfold PerformanceAnalyzer.metricValue
      rw [if_neg hm1, if_neg hm2, if_neg hm3, if_neg (by simpa using hm4)]
    simp only [PerformanceAnalyzer.get_player_time_series, if_neg hne]
    constructor
    · exact List.filterMap_eq_nil_iff.2 (fun r _ => hmv r)
    · rw [List.length_map, List.length_insertionSort]
  · intro he
    simp [PerformanceAnalyzer.get_player_time_series, he]

theorem claim_C4_witness :
    ((PerformanceAnalyzer.get_player_time_series c4_store "A" "minutes").values = [] ∧
      (PerformanceAnalyzer.get_player_time_series c4_store "A" "minutes").seasons.length =
        (PerformanceAnalyzer.players_by_name c4_store "A").length) ∧
    ((PerformanceAnalyzer.get_player_time_series c4_store "Ghost" "minutes").seasons = [] ∧
      (PerformanceAnalyzer.get_player_time_series c4_store "Ghost" "minutes").values = []) := by
  refine ⟨(claim_C4 c4_store "A" "minutes").1 (by with_unfolding_all decide)
      (by with_unfolding_all decide),
    (claim_C4 c4_store "Ghost" "minutes").2 (by with_unfolding_all decide)⟩

/-- C6: for a player name absent from the store, the time series is fully
empty, the consistency metrics are the zeroed sentinel with
`seasons_played = 0`, and correlations involving the player are 0; two
players with no common season labels also correlate to 0. -/
theorem claim_C6 (store : List PlayerStats) (p q m : String)
    (hp : PerformanceAnalyzer.players_by_name store p = []) :
    (PerformanceAnalyzer.get_player_time_series store p m).seasons = [] ∧
    (PerformanceAnalyzer.get_player_time_series store p m).values = [] ∧
    (PerformanceAnalyzer.calculate_consistency store p).seasons_played = 0 ∧
    (PerformanceAnalyzer.calculate_consistency store p).average_rating = 0 ∧
    (PerformanceAnalyzer.calculate_consistency store p).std_deviation = 0 ∧
    (PerformanceAnalyzer.calculate_consistency store p).consistency_score = 0 ∧
    (PerformanceAnalyzer.calculate_consistency store p).cv_percentage = 0 ∧
    PerformanceAnalyzer.calculate_player_correlation store p q m = 0 ∧
    PerformanceAnalyzer.calculate_player_correlation store q p m = 0 ∧
    (∀ q1 q2 : String,
      (∀ s ∈ (PerformanceAnalyzer.get_player_time_series store q1 m).seasons,
        s ∉ (PerformanceAnalyzer.get_player_time_series store q2 m).seasons) →
      PerformanceAnalyzer.calculate_player_correlation store q1 q2 m = 0) := by
  have hts : ∀ mm : String, PerformanceAnalyzer.get_player_time_series store p mm =
      { seasons := [], values := [], metric_name := mm, player_name := p } := by
    intro mm
    simp only [PerformanceAnalyzer.get_player_time_series, if_pos hp]
  have hcons : PerformanceAnalyzer.calculate_consistency store p =
      { player_name := p, average_rating := 0, std_deviation := 0,
        consistency_score := 0, cv_percentage := 0, seasons_played := 0 } := by
    simp only [PerformanceAnalyzer.calculate_consistency, hts "rating"]
    rw [if_pos trivial]
  have hcorr1 : PerformanceAnalyzer.calculate_player_correlation store p q m = 0 := by
    simp [PerformanceAnalyzer.calculate_player_correlation, hts m]
  have hcorr2 : PerformanceAnalyzer.calculate_player_correlation store q p m = 0 := by
    simp [PerformanceAnalyzer.calculate_player_correlation, hts m]
  have hnc : ∀ q1 q2 : String,
      (∀ s ∈ (PerformanceAnalyzer.get_player_time_series store q1 m).seasons,
        s ∉ (PerformanceAnalyzer.get_player_time_series store q2 m).seasons) →
      PerformanceAnalyzer.calculate_player_correlation store q1 q2 m = 0 := by
    intro q1 q2 hno
    simp only [PerformanceAnalyzer.calculate_player_correlation]
    by_cases hv : (PerformanceAnalyzer.get_player_time_series store q1 m).values = [] ∨
        (PerformanceAnalyzer.get_player_time_series store q2 m).values = []
    · rw [if_pos hv]
    · rw [if_neg hv]
      have hpairs : (((PerformanceAnalyzer.get_player_time_series store q1 m).seasons.zip
          (PerformanceAnalyzer.get_player_time_series store q1 m).values).filterMap
          (fun sv => (((PerformanceAnalyzer.get_player_time_series store q2 m).seasons.zip
            (PerformanceAnalyzer.get_player_time_series store q2 m).values).find?
            (fun sv2 => sv2.1 = sv.1)).map (fun sv2 => (sv.2, sv2.2)))) = [] := by
        refine List.filterMap_eq_nil_iff.2 ?_
        intro sv hsv
        obtain ⟨s1, v1⟩ := sv
        have hs1 : s1 ∈ (PerformanceAnalyzer.get_player_time_series store q1 m).seasons :=
          (List.of_mem_zip hsv).1
        have hfind : (((PerformanceAnalyzer.get_player_time_series store q2 m).seasons.zip
            (PerformanceAnalyzer.get_player_time_series store q2 m).values).find?
            (fun sv2 => sv2.1 = (s1, v1).1)) = none := by
          rw [List.find?_eq_none]
          intro sv2 hsv2
          obtain ⟨s2, v2⟩ := sv2
          have hs2 : s2 ∈ (PerformanceAnalyzer.get_player_time_series store q2 m).seasons :=
            (List.of_mem_zip hsv2).1
          simp only [decide_eq_true_eq]
          intro hss
          exact hno s1 hs1 (hss ▸ hs2)
        rw [hfind]
        rfl
      rw [hpairs]
      simp only [List.map_nil, StatisticalAnalyzer.calculate_correlation]
      rw [if_pos (Or.inr (by norm_num))]
  refine ⟨by rw [hts m], by rw [hts m], by rw [hcons], by rw [hcons], by rw [hcons],
    by rw [hcons], by rw [hcons], hcorr1, hcorr2, hnc⟩

theorem claim_C6_witness :
    (PerformanceAnalyzer.get_player_time_series c6_store "Ghost" "rating").seasons = [] ∧
    (PerformanceAnalyzer.get_player_time_series c6_store "Ghost" "rating").values = [] ∧
    (PerformanceAnalyzer.calculate_consistency c6_store "Ghost").seasons_played = 0 ∧
    (PerformanceAnalyzer.calculate_consistency c6_store "Ghost").average_rating = 0 ∧
    (PerformanceAnalyzer.calculate_consistency c6_store "Ghost").std_deviation = 0 ∧
    (PerformanceAnalyzer.calculate_consistency c6_store "Ghost").consistency_score = 0 ∧
    (PerformanceAnalyzer.calculate_consistency c6_store "Ghost").cv_percentage = 0 ∧
    PerformanceAnalyzer.calculate_player_correlation c6_store "Ghost" "A" "rating" = 0 ∧
    PerformanceAnalyzer.calculate_player_correlation c6_store "A" "Ghost" "rating" = 0 ∧
    (∀ q1 q2 : String,
      (∀ s ∈ (PerformanceAnalyzer.get_player_time_series c6_store q1 "rating").seasons,
        s ∉ (PerformanceAnalyzer.get_player_time_series c6_store q2 "rating").seasons) →
      PerformanceAnalyzer.calculate_player_correlation c6_store q1 q2 "rating" = 0) :=
  claim_C6 c6_store "Ghost" "A" "rating" (by with_unfolding_all decide)

lemma rating_series_values (store : List PlayerStats) (p : String) :
    (PerformanceAnalyzer.get_player_time_series store p "rating").values =
      (List.insertionSort PerformanceAnalyzer.seasonLE
        (PerformanceAnalyzer.players_by_name store p)).map (fun r => r.rating) := by
  by_cases h : PerformanceAnalyzer.players_by_name store p = []
  · simp [PerformanceAnalyzer.get_player_time_series, h, List.insertionSort]
  · simp only [PerformanceAnalyzer.get_player_time_series, if_neg h]
    exact filterMap_total (fun r => by simp [PerformanceAnalyzer.metricValue]) _

lemma consistency_player_name (store : List PlayerStats) (nm : String) :
    (PerformanceAnalyzer.calculate_consistency store nm).player_name = nm := by
  simp only [PerformanceAnalyzer.calculate_consistency]
  by_cases h : (PerformanceAnalyzer.get_player_time_series store nm "rating").values = []
  · rw [if_pos h]
  · rw [if_neg h]

/-- C1 is false as stated: the single-season player `Solo` yields
`seasons_played = 1`, not the claimed sentinel value 0. -/
theorem claim_C1_counterexample :
    (PerformanceAnalyzer.calculate_consistency c1_store "Solo").seasons_played = 1 ∧
    (PerformanceAnalyzer.calculate_consistency c1_store "Solo").seasons_played ≠ 0 := by
  constructor
  · with_unfolding_all decide
  · with_unfolding_all decide

/-- C1 amended: a player with exactly one recorded season gets
`seasons_played = 1` from `calculate_consistency` (the zeroed sentinel is
reserved for players with no records), while the player is still excluded
from every ranking pool because `get_all_consistency_metrics` only admits
players with at least 2 records. -/
theorem claim_C1_amended (store : List PlayerStats) (p : String)
    (h : (PerformanceAnalyzer.players_by_name store p).length = 1) :
    (PerformanceAnalyzer.calculate_consistency store p).seasons_played = 1 ∧
    (∀ mtr ∈ PerformanceAnalyzer.get_all_consistency_metrics store,
      mtr.player_name ≠ p) := by
  have hvals_len :
      (PerformanceAnalyzer.get_player_time_series store p "rating").values.length = 1 := by
    rw [rating_series_values, List.length_map, List.length_insertionSort, h]
  constructor
  · have hne : ¬ (PerformanceAnalyzer.get_player_time_series store p "rating").values = [] := by
      intro h0
      rw [h0] at hvals_len
      simp at hvals_len
    simp only [PerformanceAnalyzer.calculate_consistency]
    rw [if_neg hne]
    exact hvals_len
  · intro mtr hm hpe
    rcases List.mem_filterMap.1 hm with ⟨nm, _, hcond⟩
    by_cases hc : 2 ≤ (PerformanceAnalyzer.players_by_name store nm).length
    · rw [if_pos hc] at hcond
      have hmtr : mtr = PerformanceAnalyzer.calculate_consistency store nm :=
        (Option.some.inj hcond).symm
      have hname : mtr.player_name = nm := by
        rw [hmtr]
        exact consistency_player_name store nm
      rw [hname] at hpe
      rw [hpe] at hc
      omega
    · rw [if_neg hc] at hcond
      cases hcond

/-- C1 amended witness: the single-record store of the counterexample. -/
theorem claim_C1_witness :
    (PerformanceAnalyzer.calculate_consistency c1_store "Solo").seasons_played = 1 ∧
    (∀ mtr ∈ PerformanceAnalyzer.get_all_consistency_metrics c1_store,
      mtr.player_name ≠ "Solo") :=
  claim_C1_amended c1_store "Solo" (by with_unfolding_all decide)

/-- C5 is not guaranteed as stated: the source sorts with `std::sort`, whose
contract (`stdSortAdmissible`: any season-sorted permutation) admits an
output in which two equal-season records appear in reversed insertion order,
so "records with equal season labels keep their original order" is not a
property of the code. -/
theorem claim_C5_counterexample :
    PerformanceAnalyzer.stdSortAdmissible [c5_recA, c5_recB] [c5_recB, c5_recA] ∧
    ([c5_recB, c5_recA] : List PlayerStats) ≠ [c5_recA, c5_recB] := by
  refine ⟨⟨List.Perm.swap c5_recA c5_recB [], ?_⟩, ?_⟩
  · simp [List.sorted_cons, PerformanceAnalyzer.seasonLE, c5_recA, c5_recB]
  · with_unfolding_all decide

/-- C5 amended: for a known player and a supported metric the series is
built from a season-sorted permutation of the player's records (ascending
season labels), with the values sequence the parallel metric projection of
that sorted copy; the store's own record list is untouched (the sort runs
on a by-value copy).  No stability guarantee for equal season labels is
claimed. -/
theorem claim_C5_amended (store : List PlayerStats) (p m : String)
    (hm : m = "rating" ∨ m = "goals" ∨ m = "assists" ∨ m = "goals_per_match") :
    List.Sorted (fun a b : String => a ≤ b)
      ((PerformanceAnalyzer.get_player_time_series store p m).seasons) ∧
    (PerformanceAnalyzer.get_player_time_series store p m).seasons =
      (List.insertionSort PerformanceAnalyzer.seasonLE
        (PerformanceAnalyzer.players_by_name store p)).map (fun r => r.season) ∧
    (List.insertionSort PerformanceAnalyzer.seasonLE
      (PerformanceAnalyzer.players_by_name store p)).Perm
      (PerformanceAnalyzer.players_by_name store p) ∧
    (∀ i : ℕ, ((PerformanceAnalyzer.get_player_time_series store p m).values).get? i =
      ((List.insertionSort PerformanceAnalyzer.seasonLE
        (PerformanceAnalyzer.players_by_name store p)).get? i).bind
        (PerformanceAnalyzer.metricValue m)) := by
  obtain ⟨g, hg⟩ : ∃ g : PlayerStats → ℚ,
      ∀ r, PerformanceAnalyzer.metricValue m r = some (g r) := by
    rcases hm with rfl | rfl | rfl | rfl
    · exact ⟨fun r => r.rating, fun r => by simp [PerformanceAnalyzer.metricValue]⟩
    · exact ⟨fun r => (r.goals : ℚ), fun r => by simp [PerformanceAnalyzer.metricValue]⟩
    · exact ⟨fun r => (r.assists : ℚ), fun r => by simp [PerformanceAnalyzer.metricValue]⟩
    · exact ⟨fun r => r.goals_per_match, fun r => by simp [PerformanceAnalyzer.metricValue]⟩
  by_cases h : PerformanceAnalyzer.players_by_name store p = []
  · refine ⟨?_, ?_, ?_, ?_⟩ <;>
      simp [PerformanceAnalyzer.get_player_time_series, h, List.insertionSort]
  · have hsorted : List.Sorted PerformanceAnalyzer.seasonLE
        (List.insertionSort PerformanceAnalyzer.seasonLE
          (PerformanceAnalyzer.players_by_name store p)) :=
      List.sorted_insertionSort PerformanceAnalyzer.seasonLE _
    refine ⟨?_, ?_, List.perm_insertionSort _ _, ?_⟩
    · simp only [PerformanceAnalyzer.get_player_time_series, if_neg h]
      exact List.pairwise_map.2 hsorted
    · simp only [PerformanceAnalyzer.get_player_time_series, if_neg h]
    · intro i
      simp only [PerformanceAnalyzer.get_player_time_series, if_neg h]
      rw [filterMap_total hg]
      rw [List.get?_map]
      cases hsome : (List.insertionSort PerformanceAnalyzer.seasonLE
          (PerformanceAnalyzer.players_by_name store p)).get? i with
      | none => rfl
      | some r =>
        simp [hg r]

theorem claim_C5_witness :
    List.Sorted (fun a b : String => a ≤ b)
      ((PerformanceAnalyzer.get_player_time_series c5_store "A" "rating").seasons) ∧
    (PerformanceAnalyzer.get_player_time_series c5_store "A" "rating").seasons =
      (List.insertionSort PerformanceAnalyzer.seasonLE
        (PerformanceAnalyzer.players_by_name c5_store "A")).map (fun r => r.season) ∧
    (List.insertionSort PerformanceAnalyzer.seasonLE
      (PerformanceAnalyzer.players_by_name c5_store "A")).Perm
      (PerformanceAnalyzer.players_by_name c5_store "A") ∧
    (∀ i : ℕ, ((PerformanceAnalyzer.get_player_time_series c5_store "A" "rating").values).get? i =
      ((List.insertionSort PerformanceAnalyzer.seasonLE
        (PerformanceAnalyzer.players_by_name c5_store "A")).get? i).bind
        (PerformanceAnalyzer.metricValue "rating")) :=
  claim_C5_amended c5_store "A" "rating" (Or.inl rfl)

lemma length_assignRanks (t : ℕ) : ∀ (i : ℕ) (l : List PerformanceRanking),
    (PerformanceAnalyzer.assignRanks t i l).length = l.length := by
  intro i l
  induction l generalizing i with
  | nil => rfl
  | cons r rest ih =>
    simp only [PerformanceAnalyzer.assignRanks, List.length_cons, ih]

lemma get?_assignRanks (t : ℕ) : ∀ (l : List PerformanceRanking) (i j : ℕ),
    (PerformanceAnalyzer.assignRanks t i l).get? j =
      (l.get? j).map
        (fun r => if i + j < t then { r with rank := some (i + j + 1) } else r) := by
  intro l
  induction l with
  | nil => intro i j; rfl
  | cons r rest ih =>
    intro i j
    cases j with
    | zero =>
      simp only [PerformanceAnalyzer.assignRanks, List.get?, Nat.add_zero]
      rfl
    | succ j =>
      simp only [PerformanceAnalyzer.assignRanks, List.get?]
      rw [ih (i + 1) j]
      have harith : i + 1 + j = i + (j + 1) := by omega
      rw [harith]

lemma map_score_assignRanks (t : ℕ) : ∀ (i : ℕ) (l : List PerformanceRanking),
    (PerformanceAnalyzer.assignRanks t i l).map (fun r => r.score) =
      l.map (fun r => r.score) := by
  intro i l
  induction l generalizing i with
  | nil => rfl
  | cons r rest ih =>
    by_cases hi : i < t <;>
      simp [PerformanceAnalyzer.assignRanks, hi, ih]

lemma map_strip_assignRanks (t : ℕ) : ∀ (i : ℕ) (l : List PerformanceRanking),
    (PerformanceAnalyzer.assignRanks t i l).map stripRank = l.map stripRank := by
  intro i l
  induction l generalizing i with
  | nil => rfl
  | cons r rest ih =>
    by_cases hi : i < t <;>
      simp [PerformanceAnalyzer.assignRanks, hi, ih, stripRank]

lemma sorted_scoreGE_iff (l : List PerformanceRanking) :
    List.Sorted PerformanceAnalyzer.scoreGE l ↔
      (l.map (fun r => r.score)).Pairwise (fun x y : ℝ => y ≤ x) := by
  induction l with
  | nil => simp
  | cons r rest ih =>
    simp [List.sorted_cons, List.pairwise_cons, PerformanceAnalyzer.scoreGE, ih]

lemma sorted_scoreGE_of_map {l l2 : List PerformanceRanking}
    (hmap : l2.map (fun r => r.score) = l.map (fun r => r.score))
    (hs : List.Sorted PerformanceAnalyzer.scoreGE l) :
    List.Sorted PerformanceAnalyzer.scoreGE l2 := by
  rw [sorted_scoreGE_iff] at hs ⊢
  rw [hmap]
  exact hs

lemma metrics_eq_map (store : List PlayerStats) :
    PerformanceAnalyzer.get_all_consistency_metrics store =
      (PerformanceAnalyzer.eligibleNames store).map
        (PerformanceAnalyzer.calculate_consistency store) := by
  unfold PerformanceAnalyzer.get_all_consistency_metrics PerformanceAnalyzer.eligibleNames
  exact filterMap_if_eq_map_filter
    (fun n => 2 ≤ (PerformanceAnalyzer.players_by_name store n).length)
    (PerformanceAnalyzer.calculate_consistency store) _

/-- C3: when `n` exceeds the eligible pool size `k`, `get_top_consistent_players`
returns exactly the full pool (as a permutation, up to rank assignment),
sorted descending by composite score, with ranks `1..k` assigned positionally
and no padding or ranks beyond `k`. -/
theorem claim_C3 (store : List PlayerStats) (n : ℕ)
    (h : (PerformanceAnalyzer.eligibleNames store).length < n) :
    (PerformanceAnalyzer.get_top_consistent_players store n).length =
      (PerformanceAnalyzer.eligibleNames store).length ∧
    List.Sorted PerformanceAnalyzer.scoreGE
      (PerformanceAnalyzer.get_top_consistent_players store n) ∧
    (∀ i : ℕ, i < (PerformanceAnalyzer.eligibleNames store).length →
      ((PerformanceAnalyzer.get_top_consistent_players store n).get? i).map
        PerformanceRanking.rank = some (some (i + 1))) ∧
    ((PerformanceAnalyzer.get_top_consistent_players store n).map stripRank).Perm
      (((PerformanceAnalyzer.get_all_consistency_metrics store).map
        (PerformanceAnalyzer.mkRanking store)).map stripRank) := by
  have hk : ((PerformanceAnalyzer.get_all_consistency_metrics store).map
      (PerformanceAnalyzer.mkRanking store)).length =
      (PerformanceAnalyzer.eligibleNames store).length := by
    rw [List.length_map, metrics_eq_map, List.length_map]
  have hslen : (List.insertionSort PerformanceAnalyzer.scoreGE
      ((PerformanceAnalyzer.get_all_consistency_metrics store).map
        (PerformanceAnalyzer.mkRanking store))).length =
      (PerformanceAnalyzer.eligibleNames store).length := by
    rw [List.length_insertionSort]
    exact hk
  have htop : PerformanceAnalyzer.get_top_consistent_players store n =
      PerformanceAnalyzer.assignRanks n 0 (List.insertionSort PerformanceAnalyzer.scoreGE
        ((PerformanceAnalyzer.get_all_consistency_metrics store).map
          (PerformanceAnalyzer.mkRanking store))) := by
    show (PerformanceAnalyzer.assignRanks n 0 _).take n = _
    refine List.take_of_length_le ?_
    rw [length_assignRanks, hslen]
    omega
  refine ⟨?_, ?_, ?_, ?_⟩
  · rw [htop, length_assignRanks, hslen]
  · rw [htop]
    refine sorted_scoreGE_of_map (map_score_assignRanks n 0 _) ?_
    exact List.sorted_insertionSort PerformanceAnalyzer.scoreGE _
  · intro i hi
    rw [htop, get?_assignRanks]
    rw [List.get?_eq_get (by rw [hslen]; exact hi)]
    have h0i : 0 + i < n := by omega
    have hin : i < n := by omega
    simp [h0i, hin]
  · rw [htop, map_strip_assignRanks]
    exact List.Perm.map stripRank (List.perm_insertionSort _ _)

theorem claim_C3_witness :
    (PerformanceAnalyzer.get_top_consistent_players c3_store 5).length =
      (PerformanceAnalyzer.eligibleNames c3_store).length ∧
    List.Sorted PerformanceAnalyzer.scoreGE
      (PerformanceAnalyzer.get_top_consistent_players c3_store 5) ∧
    (∀ i : ℕ, i < (PerformanceAnalyzer.eligibleNames c3_store).length →
      ((PerformanceAnalyzer.get_top_consistent_players c3_store 5).get? i).map
        PerformanceRanking.rank = some (some (i + 1))) ∧
    ((PerformanceAnalyzer.get_top_consistent_players c3_store 5).map stripRank).Perm
      (((PerformanceAnalyzer.get_all_consistency_metrics c3_store).map
        (PerformanceAnalyzer.mkRanking c3_store)).map stripRank) :=
  claim_C3 c3_store 5 (by with_unfolding_all decide)

lemma listLookup_updAssoc (p : PlayerStats) (k : String × String) :
    ∀ acc : List ((String × String) × TeamPerformance),
    listLookup (PerformanceAnalyzer.updAssoc acc p) k =
      if k = PerformanceAnalyzer.tsKey p then
        some (PerformanceAnalyzer.bumpPerf
          ((listLookup acc k).getD PerformanceAnalyzer.emptyPerf) p)
      else listLookup acc k := by
  intro acc
  induction acc with
  | nil =>
    by_cases hk : k = PerformanceAnalyzer.tsKey p
    · simp [PerformanceAnalyzer.updAssoc, listLookup, hk]
    · simp [PerformanceAnalyzer.updAssoc, listLookup, hk, Ne.symm hk]
  | cons hd rest ih =>
    obtain ⟨k2, perf⟩ := hd
    by_cases h1 : k2 = PerformanceAnalyzer.tsKey p
    · by_cases h2 : k = PerformanceAnalyzer.tsKey p
      · have hk2 : k2 = k := h1.trans h2.symm
        simp [PerformanceAnalyzer.updAssoc, listLookup, h1, h2, hk2]
      · have hk2 : ¬ (k2 = k) := fun hc => h2 (hc ▸ h1)
        have hk3 : ¬ (PerformanceAnalyzer.tsKey p = k) := fun hc => h2 hc.symm
        simp [PerformanceAnalyzer.updAssoc, listLookup, h1, h2, hk2, hk3]
    · by_cases h3 : k2 = k
      · have hk : ¬ (k = PerformanceAnalyzer.tsKey p) := fun hc => h1 (h3.symm ▸ hc)
        simp [PerformanceAnalyzer.updAssoc, listLookup, h1, h3, hk]
      · simp [PerformanceAnalyzer.updAssoc, listLookup, h1, h3, ih]

lemma listLookup_foldl (k : String × String) :
    ∀ (l : List PlayerStats) (acc : List ((String × String) × TeamPerformance)),
    listLookup (l.foldl PerformanceAnalyzer.updAssoc acc) k =
      match listLookup acc k with
      | some v => some ((groupRecords l k).foldl PerformanceAnalyzer.bumpPerf v)
      | none =>
        if groupRecords l k = [] then none
        else some ((groupRecords l k).foldl PerformanceAnalyzer.bumpPerf
          PerformanceAnalyzer.emptyPerf) := by
  intro l
  induction l with
  | nil =>
    intro acc
    cases hacc : listLookup acc k <;> simp [groupRecords, hacc]
  | cons p t ih =>
    intro acc
    rw [List.foldl_cons, ih]
    rw [listLookup_updAssoc]
    by_cases hk : k = PerformanceAnalyzer.tsKey p
    · subst hk
      have hgrp : groupRecords (p :: t) (PerformanceAnalyzer.tsKey p) =
          p :: groupRecords t (PerformanceAnalyzer.tsKey p) := by
        simp [groupRecords, List.filter_cons]
      rw [if_pos rfl]
      cases hacc : listLookup acc (PerformanceAnalyzer.tsKey p) with
      | none => simp [hacc, hgrp]
      | some v => simp [hacc, hgrp]
    · have hpk : ¬ (PerformanceAnalyzer.tsKey p = k) := fun hc => hk hc.symm
      have hgrp : groupRecords (p :: t) k = groupRecords t k := by
        simp [groupRecords, List.filter_cons, hpk]
      rw [if_neg hk, hgrp]

lemma assocKeys_updAssoc (p : PlayerStats) :
    ∀ acc, assocKeys (PerformanceAnalyzer.updAssoc acc p) =
      if PerformanceAnalyzer.tsKey p ∈ assocKeys acc then assocKeys acc
      else assocKeys acc ++ [PerformanceAnalyzer.tsKey p] := by
  intro acc
  induction acc with
  | nil => simp [PerformanceAnalyzer.updAssoc, assocKeys]
  | cons hd rest ih =>
    obtain ⟨k2, perf⟩ := hd
    by_cases h1 : k2 = PerformanceAnalyzer.tsKey p
    · simp [PerformanceAnalyzer.updAssoc, assocKeys, h1]
    · have h1s : ¬ (PerformanceAnalyzer.tsKey p = k2) := fun hc => h1 hc.symm
      simp only [PerformanceAnalyzer.updAssoc]
      rw [if_neg h1]
      simp only [assocKeys, List.map_cons] at ih ⊢
      rw [ih]
      by_cases h2 : PerformanceAnalyzer.tsKey p ∈ rest.map (fun kp => kp.1)
      · rw [if_pos h2, if_pos (List.mem_cons_of_mem _ h2)]
      · rw [if_neg h2, if_neg (by simp [List.mem_cons, h1s, h2])]
        rfl

lemma nodup_assocKeys_foldl :
    ∀ (l : List PlayerStats) acc, (assocKeys acc).Nodup →
      (assocKeys (l.foldl PerformanceAnalyzer.updAssoc acc)).Nodup := by
  intro l
  induction l with
  | nil => intro acc h; exact h
  | cons p t ih =>
    intro acc h
    rw [List.foldl_cons]
    refine ih _ ?_
    rw [assocKeys_updAssoc]
    by_cases hm : PerformanceAnalyzer.tsKey p ∈ assocKeys acc
    · rwa [if_pos hm]
    · rw [if_neg hm, ← List.concat_eq_append]
      exact h.concat hm

lemma listLookup_of_mem :
    ∀ (l : List ((String × String) × TeamPerformance)),
      (assocKeys l).Nodup → ∀ kp ∈ l, listLookup l kp.1 = some kp.2 := by
  intro l
  induction l with
  | nil => intro _ kp hkp; cases hkp
  | cons hd rest ih =>
    intro hnd kp hkp
    obtain ⟨k2, perf⟩ := hd
    rcases List.mem_cons.1 hkp with rfl | hkp2
    · simp [listLookup]
    · have hnd1 : (k2 :: assocKeys rest).Nodup := by
        simpa only [assocKeys, List.map_cons] using hnd
      obtain ⟨hk2nm, hnd2⟩ := List.nodup_cons.1 hnd1
      have hk2 : ¬ (k2 = kp.1) := by
        intro hc
        have hmem : kp.1 ∈ assocKeys rest := List.mem_map_of_mem (fun q => q.1) hkp2
        exact hk2nm (hc ▸ hmem)
      simp only [listLookup, if_neg hk2]
      exact ih hnd2 kp hkp2

lemma foldl_bumpPerf_rating (recs : List PlayerStats) :
    ∀ v : TeamPerformance, (recs.foldl PerformanceAnalyzer.bumpPerf v).average_rating =
      v.average_rating + (recs.map (fun r => r.rating)).sum := by
  induction recs with
  | nil => intro v; simp
  | cons r rest ih =>
    intro v
    rw [List.foldl_cons, ih, List.map_cons, List.sum_cons]
    simp [PerformanceAnalyzer.bumpPerf]
    ring

lemma foldl_bumpPerf_key (k : String × String) :
    ∀ (recs : List PlayerStats) (v : TeamPerformance), recs ≠ [] →
      (∀ r ∈ recs, PerformanceAnalyzer.tsKey r = k) →
      (recs.foldl PerformanceAnalyzer.bumpPerf v).team_name = k.1 ∧
      (recs.foldl PerformanceAnalyzer.bumpPerf v).season = k.2 := by
  intro recs
  induction recs with
  | nil => intro v hne; exact absurd rfl hne
  | cons r rest ih =>
    intro v _ hkeys
    have hr : PerformanceAnalyzer.tsKey r = k := hkeys r (List.mem_cons_self r rest)
    cases rest with
    | nil =>
      simp only [List.foldl_cons, List.foldl_nil]
      unfold PerformanceAnalyzer.tsKey at hr
      exact ⟨by simp [PerformanceAnalyzer.bumpPerf, ← hr],
        by simp [PerformanceAnalyzer.bumpPerf, ← hr]⟩
    | cons r2 rest2 =>
      rw [List.foldl_cons]
      exact ih _ (by simp) (fun q hq => hkeys q (List.mem_cons_of_mem r hq))

/-- C2: every `(team, season)` group produced by
`get_team_performance_by_season` carries an `average_rating` equal to the
sum of that team's ratings in that one season divided by the team's total
record count across all seasons. -/
theorem claim_C2 (store : List PlayerStats) (tp : TeamPerformance)
    (htp : tp ∈ PerformanceAnalyzer.get_team_performance_by_season store) :
    tp.average_rating =
      (((PerformanceAnalyzer.players_by_team store tp.team_name).filter
        (fun r => r.season = tp.season)).map (fun r => r.rating)).sum /
      ((PerformanceAnalyzer.players_by_team store tp.team_name).length : ℚ) := by
  rcases List.mem_map.1 htp with ⟨kp, hkp, htp_eq⟩
  have hnd : (assocKeys (PerformanceAnalyzer.team_season_fold store)).Nodup := by
    have h0 : (assocKeys ([] : List ((String × String) × TeamPerformance))).Nodup := by
      simp [assocKeys]
    exact nodup_assocKeys_foldl store [] h0
  have hlook : listLookup (PerformanceAnalyzer.team_season_fold store) kp.1 = some kp.2 :=
    listLookup_of_mem _ hnd kp hkp
  have hfold := listLookup_foldl kp.1 store []
  have hll : listLookup ([] : List ((String × String) × TeamPerformance)) kp.1 = none := rfl
  rw [hll] at hfold
  have hfold2 : listLookup (PerformanceAnalyzer.team_season_fold store) kp.1 =
      if groupRecords store kp.1 = [] then none
      else some ((groupRecords store kp.1).foldl PerformanceAnalyzer.bumpPerf
        PerformanceAnalyzer.emptyPerf) := hfold
  rw [hlook] at hfold2
  by_cases hgr : groupRecords store kp.1 = []
  · rw [if_pos hgr] at hfold2
    cases hfold2
  · rw [if_neg hgr] at hfold2
    have hv : kp.2 = (groupRecords store kp.1).foldl PerformanceAnalyzer.bumpPerf
        PerformanceAnalyzer.emptyPerf := Option.some.inj hfold2
    have hkeys : ∀ r ∈ groupRecords store kp.1, PerformanceAnalyzer.tsKey r = kp.1 := by
      intro r hr
      have := List.mem_filter.1 hr
      simpa using this.2
    obtain ⟨hteam, hseason⟩ := foldl_bumpPerf_key kp.1 (groupRecords store kp.1)
      PerformanceAnalyzer.emptyPerf hgr hkeys
    rw [← hv] at hteam hseason
    have hsum : kp.2.average_rating =
        ((groupRecords store kp.1).map (fun r => r.rating)).sum := by
      rw [hv, foldl_bumpPerf_rating]
      simp [PerformanceAnalyzer.emptyPerf]
    -- the team has at least one record
    have hcnt : 0 < (PerformanceAnalyzer.players_by_team store kp.2.team_name).length := by
      rcases List.exists_mem_of_ne_nil _ hgr with ⟨r, hr⟩
      have hrs := List.mem_filter.1 hr
      have hrk : PerformanceAnalyzer.tsKey r = kp.1 := by simpa using hrs.2
      have hrteam : r.team = kp.2.team_name := by
        rw [hteam]
        unfold PerformanceAnalyzer.tsKey at hrk
        rw [← hrk]
      refine List.length_pos.2 ?_
      intro hemp
      have : r ∈ PerformanceAnalyzer.players_by_team store kp.2.team_name := by
        refine List.mem_filter.2 ⟨hrs.1, by simpa using hrteam⟩
      rw [hemp] at this
      cases this
    -- unpack the finalizing map step
    have htp2 : tp = { kp.2 with average_rating := kp.2.average_rating /
        ((PerformanceAnalyzer.players_by_team store kp.2.team_name).length : ℚ) } := by
      rw [← htp_eq]
      show (if 0 < (PerformanceAnalyzer.players_by_team store kp.2.team_name).length
          then { kp.2 with average_rating := kp.2.average_rating /
            ((PerformanceAnalyzer.players_by_team store kp.2.team_name).length : ℚ) }
          else kp.2) =
        { kp.2 with average_rating := kp.2.average_rating /
          ((PerformanceAnalyzer.players_by_team store kp.2.team_name).length : ℚ) }
      rw [if_pos hcnt]
    have hteam2 : tp.team_name = kp.2.team_name := by rw [htp2]
    have hseason2 : tp.season = kp.2.season := by rw [htp2]
    have hgroup_eq : (PerformanceAnalyzer.players_by_team store tp.team_name).filter
        (fun r => r.season = tp.season) = groupRecords store kp.1 := by
      unfold PerformanceAnalyzer.players_by_team groupRecords
      rw [List.filter_filter]
      refine List.filter_congr ?_
      intro r _
      have h1 : (tp.team_name = kp.1.1) := by rw [hteam2, hteam]
      have h2 : (tp.season = kp.1.2) := by rw [hseason2, hseason]
      rw [h1, h2]
      unfold PerformanceAnalyzer.tsKey
      by_cases hq : r.team = kp.1.1 ∧ r.season = kp.1.2
      · simp [hq.1, hq.2, Prod.ext_iff]
      · rcases not_and_or.1 hq with hq1 | hq1 <;> simp [hq1, Prod.ext_iff]
    have hval : tp.average_rating = kp.2.average_rating /
        ((PerformanceAnalyzer.players_by_team store kp.2.team_name).length : ℚ) := by
      rw [htp2]
    rw [hval, hsum, hgroup_eq, hteam2]

theorem claim_C2_witness :
    c2_entry ∈ PerformanceAnalyzer.get_team_performance_by_season c2_store ∧
    c2_entry.average_rating =
      (((PerformanceAnalyzer.players_by_team c2_store c2_entry.team_name).filter
        (fun r => r.season = c2_entry.season)).map (fun r => r.rating)).sum /
      ((PerformanceAnalyzer.players_by_team c2_store c2_entry.team_name).length : ℚ) :=
  ⟨by with_unfolding_all decide,
    claim_C2 c2_store c2_entry (by with_unfolding_all decide)⟩
